import Mathlib

/-!
# Verification of the hatch-meson install-plan translation and tag computation

Shallow embedding of the core of `src/hatch_meson/plugin.py`: the
install-category mapper (`_map_to_wheel`), the binary-format sniffer
(`_is_native`), the purity check (`_install_is_pure`), the stable-ABI auditor
(`_compute_stable_abi`), the tag selector (`_compute_tag`), and the relevant
slice of the orchestrating build hook (`MesonBuildHook.initialize`).

Modelling conventions:
* paths are lists of path segments (`pathlib.Path.parts`); joining uses "/"
  (`Path.as_posix`, and `os.fspath` on the POSIX hosts the messages quote);
* file contents are modelled by their list of leading bytes (`List Nat`),
  which is all the sniffer reads;
* the filesystem subtree under a source path is modelled by an `FsTree`;
* Python exceptions become an `Err`-valued `Except`; `ConfigError` and
  `BuildError` from plugin.py are the two constructors, and the uncaught
  `IndexError` that `destination.parts[0]` would raise on an empty
  destination is `pyIndexError`.
-/

deriving instance DecidableEq for Except

/-- The two error classes of plugin.py (`ConfigError`, `BuildError`), plus the
uncaught Python `IndexError` raised by `destination.parts[0]` when a
destination has no segments. -/
inductive Err where
  | configError (msg : String)
  | buildError (msg : String)
  | pyIndexError
deriving DecidableEq, Repr

/-- A filesystem object: a regular file (with its leading bytes) or a
directory listing named children in arbitrary on-disk order (`os.walk`
reports names in unspecified order; the mapper sorts them itself). -/
inductive FsTree where
  | file (bytes : List Nat)
  | dir (children : List (String × FsTree))

/-- `os.path.isdir`. -/
def FsTree.isDir : FsTree → Bool
  | .file _ => false
  | .dir _ => true

/-- Leading bytes of a file node (what `open(fname, "rb").read(n)` starts
from); `[]` for a directory. -/
def FsTree.headBytes : FsTree → List Nat
  | .file b => b
  | .dir _ => []

/-- One `(destination, source)` pair appended to a wheel bucket by
`_map_to_wheel` (plugin.py lines 99-167).  `dst` is the wheel-relative
destination path, `src` the build-tree source path, `bytes` the leading
bytes of the source file. -/
structure MappedEntry where
  dst : List String
  src : List String
  bytes : List Nat
deriving DecidableEq, Repr

/-- The `defaultdict(list)` returned by `_map_to_wheel`, modelled as the list
of `(bucket, entry)` appends in emission order. -/
abbrev WheelMap := List (String × MappedEntry)

/-- Reading `install_plan[key]` from the `defaultdict(list)`: the entries
appended under `key`, in order ( `[]` for an absent key). -/
def lookupBucket (wm : WheelMap) (key : String) : List MappedEntry :=
  (wm.filter (fun p => p.1 = key)).map (fun p => p.2)

/-- Join path segments with "/" (`PurePath.as_posix`; also `str`/`os.fspath`
on POSIX hosts, where the error messages in the claims are rendered). -/
def joinPath (p : List String) : String :=
  String.intercalate "/" p

/-- `_INSTALLATION_PATH_MAP` (plugin.py lines 83-96): Meson install-path
placeholder to wheel directory.  The commented-out `{includedir}` and
`{libdir}` entries of the source are likewise absent here. -/
def _INSTALLATION_PATH_MAP : List (String × String) :=
  [("{bindir}", "scripts"),
   ("{py_purelib}", "purelib"),
   ("{py_platlib}", "platlib"),
   ("{moduledir_shared}", "platlib"),
   ("{datadir}", "data")]

/-- One `(key, src, target)` item of the `sources` argument of
`_map_to_wheel`: `key` is the install-plan group ("targets",
"install_subdirs", ...), `destination` is `target["destination"]` split into
segments, `content` is what the filesystem holds at `src`, and the exclude
sets are `target.get("exclude_files"/"exclude_dirs", [])`, already split into
normalized segment lists (the source applies `os.path.normpath`). -/
structure InstallRecord where
  key : String
  src : List String
  destination : List String
  content : FsTree
  exclude_files : List (List String)
  exclude_dirs : List (List String)

/-- Code-point lexicographic comparison of character lists: exactly the
order Python's `sorted` uses on strings. -/
def charListLe : List Char → List Char → Bool
  | [], _ => true
  | _ :: _, [] => false
  | a :: as, b :: bs =>
    if a.toNat < b.toNat then true
    else if b.toNat < a.toNat then false
    else charListLe as bs

/-- String comparison by code points (Python's `<=` on `str`). -/
def strLe (a b : String) : Bool := charListLe a.data b.data

/-- Insert an element into a sorted list, before the first element it
compares `le` to (so equal keys keep their original relative order). -/
def insertLe {α : Type} (le : α → α → Bool) (a : α) : List α → List α
  | [] => [a]
  | b :: l => if le a b then a :: b :: l else b :: insertLe le a l

/-- Python's stable `sorted(...)`: a structural stable insertion sort.  Any
stable sort with the same total comparator produces the same list, so this
is extensionally the sort the source's `sorted`/`dirnames.sort()` perform. -/
def pySorted {α : Type} (le : α → α → Bool) : List α → List α
  | [] => []
  | a :: l => insertLe le a (pySorted le l)

mutual
/-- The `os.walk` loop of `_map_to_wheel` (plugin.py lines 149-163) run on
root `t`, where `rel` is the path of `t` relative to the walk root: prune
subdirectories whose relative path is in `exclude_dirs`, sort directory and
file names, skip files whose relative path is in `exclude_files`, and emit
one entry per surviving file with destination `dstBase ++ relpath`.

The source sorts the pruned directory names and then recurses; here the
recursion over the original child list (`walkBlocks`) is hoisted before the
pruning and the stable sort, which leaves the emitted list unchanged because
the sort key is the directory name carried with each block. -/
def walkEmit (srcBase dstBase : List String) (exDirs exFiles : List (List String)) :
    FsTree → List String → List MappedEntry
  | .file _, _ => []
  | .dir children, rel =>
    let files := pySorted (fun a b => strLe a.1 b.1)
      (children.filter (fun c => c.2.isDir = false))
    let fileEntries := files.filterMap (fun c =>
      if rel ++ [c.1] ∈ exFiles then none
      else some ⟨dstBase ++ rel ++ [c.1], srcBase ++ rel ++ [c.1], c.2.headBytes⟩)
    let kept := (walkBlocks srcBase dstBase exDirs exFiles children rel).filter
      (fun b => b.2.1 && !(exDirs.contains (rel ++ [b.1])))
    let sorted := pySorted (fun a b => strLe a.1 b.1) kept
    fileEntries ++ sorted.flatMap (fun b => b.2.2)

/-- Recursive walk of every child of a directory, keeping the child's name
and directory flag with its emitted entries. -/
def walkBlocks (srcBase dstBase : List String) (exDirs exFiles : List (List String)) :
    List (String × FsTree) → List String → List (String × Bool × List MappedEntry)
  | [], _ => []
  | (n, t) :: rest, rel =>
    (n, t.isDir, walkEmit srcBase dstBase exDirs exFiles t (rel ++ [n])) ::
      walkBlocks srcBase dstBase exDirs exFiles rest rel
end

/-- Is this record expanded as a directory?  Mirrors plugin.py line 142:
`key == "install_subdirs" or key == "targets" and os.path.isdir(src)`
(Python parses this as `key == "install_subdirs" or (key == "targets" and
isdir(src))`). -/
def isDirRecord (r : InstallRecord) : Bool :=
  r.key = "install_subdirs" || (r.key = "targets" && r.content.isDir)

/-- The message of the `BuildError` raised for an unmapped placeholder
(plugin.py lines 116-118); `{str(destination)!r}` renders with single
quotes. -/
def mapErrMsg (destination : List String) : String :=
  "Could not map installation path to an equivalent wheel directory: \x27"
    ++ joinPath destination ++ "\x27"

/-- The body of the `for src, target in group.items()` loop of
`_map_to_wheel` for a single record: resolve the destination anchor through
`_INSTALLATION_PATH_MAP` (unknown anchor: `BuildError`), then either expand a
directory record through the walk or emit the single `(dst, src)` pair. -/
def mapRecord (r : InstallRecord) : Except Err (List (String × MappedEntry)) :=
  match r.destination with
  | [] => .error .pyIndexError
  | anchor :: dstRest =>
    match _INSTALLATION_PATH_MAP.lookup anchor with
    | none => .error (.buildError (mapErrMsg r.destination))
    | some path =>
      if isDirRecord r then
        .ok ((walkEmit r.src dstRest r.exclude_dirs r.exclude_files r.content []).map
          (fun e => (path, e)))
      else
        .ok [(path, ⟨dstRest, r.src, r.content.headBytes⟩)]

/-- `_map_to_wheel` (plugin.py lines 99-167): fold `mapRecord` over the
records in iteration order, accumulating per-bucket appends; the first
raised error aborts the whole mapping. -/
def _map_to_wheel : List InstallRecord → Except Err WheelMap
  | [] => .ok []
  | r :: rest => do
    let es ← mapRecord r
    let ws ← _map_to_wheel rest
    .ok (es ++ ws)

/-- `_is_native` (plugin.py lines 170-185): compare the file's leading bytes
against the host platform's magic set.  `sysPlatform` is `sys.platform`;
`bytes` the file's contents (the function reads 4 bytes, or 2 on the
Windows family; a shorter file compares unequal, exactly as the short read
does in Python). -/
def _is_native (sysPlatform : String) (bytes : List Nat) : Bool :=
  if sysPlatform = "darwin" then
    decide (bytes.take 4 ∈
      [[0xfe, 0xed, 0xfa, 0xce],   -- 32-bit
       [0xfe, 0xed, 0xfa, 0xcf],   -- 64-bit
       [0xcf, 0xfa, 0xed, 0xfe],   -- arm64
       [0xca, 0xfe, 0xba, 0xbe]])  -- universal / fat
  else if sysPlatform = "win32" ∨ sysPlatform = "cygwin" then
    decide (bytes.take 2 = [0x4d, 0x5a])            -- "MZ"
  else
    decide (bytes.take 4 = [0x7f, 0x45, 0x4c, 0x46]) -- "\x7fELF"

/-- `_install_is_pure` (plugin.py lines 188-197). -/
def _install_is_pure (wm : WheelMap) (sysPlatform : String) : Bool :=
  if lookupBucket wm "platlib" ≠ [] then false
  else if (lookupBucket wm "scripts").any (fun e => _is_native sysPlatform e.bytes) then false
  else true

/-- Python's `str.split(".")` on the character list of a filename. -/
def splitDots : List Char → List (List Char)
  | [] => [[]]
  | c :: rest =>
    let r := splitDots rest
    if c = '.' then [] :: r
    else
      match r with
      | h :: t => (c :: h) :: t
      | [] => [[c]]

/-- Model of `_EXTENSION_SUFFIX_REGEX` (plugin.py line 75):
`^[^.]+\.(?:(?P<abi>[^.]+)\.)?(?:so|pyd|dll)$` applied to a filename.
Returns `none` when the regex does not match, `some none` on a match without
an `abi` group, `some (some abi)` on a match with one.  Because `[^.]+`
cannot cross a dot and the suffix alternatives are dot-free literals, the
regex matches exactly the filenames with two or three dot-separated nonempty
parts whose last part is `so`, `pyd` or `dll`, which is what the dot-split
tests. -/
def extAbiTag (name : String) : Option (Option String) :=
  match splitDots name.data with
  | [stem, sfx] =>
    if stem ≠ [] ∧ (sfx = "so".data ∨ sfx = "pyd".data ∨ sfx = "dll".data) then
      some none
    else none
  | [stem, abi, sfx] =>
    if stem ≠ [] ∧ abi ≠ [] ∧ (sfx = "so".data ∨ sfx = "pyd".data ∨ sfx = "dll".data) then
      some (some (String.mk abi))
    else none
  | _ => none

/-- `pathlib.PurePath.name` of a destination given by its segments. -/
def nameOf (p : List String) : String := p.getLastD ""

/-- The message of the `BuildError` raised by `_compute_stable_abi`
(plugin.py lines 218-221). -/
def abiErrMsg (dst : List String) : String :=
  "The package declares compatibility with Python limited API but extension module \x27"
    ++ joinPath dst ++ "\x27 is tagged for a specific Python version."

/-- The `for path, _ in install_plan["platlib"]` loop of
`_compute_stable_abi` (plugin.py lines 213-222): raise on the first entry
whose filename matches the extension regex with an ABI tag other than
"abi3"; return "abi3" when the loop finishes. -/
def abiCheck : List MappedEntry → Except Err (Option String)
  | [] => .ok (some "abi3")
  | e :: rest =>
    match extAbiTag (nameOf e.dst) with
    | some (some a) =>
      if a = "abi3" then abiCheck rest else .error (.buildError (abiErrMsg e.dst))
    | _ => abiCheck rest

/-- `_compute_stable_abi` (plugin.py lines 200-223).  `pypy` is
`"__pypy__" in sys.builtin_module_names`. -/
def _compute_stable_abi (wm : WheelMap) (limited_api pypy : Bool) :
    Except Err (Option String) :=
  if limited_api && !pypy then abiCheck (lookupBucket wm "platlib")
  else .ok none

/-- The slot triple handed to `_tags.Tag(...)`: `none` slots are resolved to
runtime-concrete values at serialization time. -/
structure Tag where
  interpreter : Option String
  abi : Option String
  platform : Option String
deriving DecidableEq, Repr

/-- `_compute_tag` (plugin.py lines 226-242). -/
def _compute_tag (wm : WheelMap) (limited_api pypy : Bool) (sysPlatform : String) :
    Except Err Tag :=
  if _install_is_pure wm sysPlatform then .ok ⟨some "py3", some "none", some "any"⟩
  else if lookupBucket wm "platlib" = [] then .ok ⟨some "py3", some "none", none⟩
  else
    match _compute_stable_abi wm limited_api pypy with
    | .error e => .error e
    | .ok abi => .ok ⟨none, abi, none⟩

/-- Modelled from the spec: the runtime-environment values that the missing
`_tags` module (`Tag.__str__`, `get_platform_tag`, interpreter/ABI tag
queries) reads when serializing a tag — the concrete host platform tag, the
concrete interpreter+ABI tag pair reported by the runtime, and the
major-version-only interpreter tag used with the stable-ABI marker. -/
structure TagEnv where
  platform_tag : String
  interpreter_tag : String
  abi_tag : String
  major_interpreter_tag : String

/-- Modelled from the spec: resolution of `none` slots of a `Tag` to
concrete values (spec sections 3 and 4.5).  A `none` platform becomes the
concrete host platform; a `none` ABI makes the interpreter/ABI pair the
runtime-concrete pair; with a concrete ABI (the stable-ABI marker) a `none`
interpreter becomes the runtime's major-version-only interpreter tag. -/
def Tag.resolve (env : TagEnv) (t : Tag) : String × String × String :=
  let p := t.platform.getD env.platform_tag
  match t.abi with
  | none => (env.interpreter_tag, env.abi_tag, p)
  | some a => (t.interpreter.getD env.major_interpreter_tag, a, p)

/-- Modelled from the spec: `str(tag)`, the three resolved fields joined
with dashes. -/
def Tag.render (env : TagEnv) (t : Tag) : String :=
  let r := t.resolve env
  r.1 ++ "-" ++ r.2.1 ++ "-" ++ r.2.2

/-- The fields of hatchling's `build_data` dict that
`MesonBuildHook.initialize` writes: shared scripts/data maps (source path to
destination), forced inclusions, the purity flag, the tag string and the
artifact list. -/
structure BuildData where
  shared_scripts : List (String × String)
  shared_data : List (String × String)
  force_include : List (String × String)
  pure_python : Bool
  tag : Option String
  artifacts : List String
deriving DecidableEq, Repr

/-- The message of the mixed purelib/platlib `BuildError`
(plugin.py lines 386-390). -/
def mixedLayoutMsg : String :=
  "The install plan contains both purelib and platlib components, a "
    ++ "\x27pure: false\x27 argument may be missing in meson.build. "
    ++ "It is recommended to set it in \"import(\x27python\x27).find_installation()\""

/-- The install-plan consumption slice of `MesonBuildHook.initialize`
(plugin.py lines 361-422), from `install_plan = self._get_meson_install_plan()`
on: register scripts as shared scripts and the "datadir" bucket as shared
data, reject a mixed purelib/platlib layout, record forced inclusions and
artifacts for purelib/platlib entries (the `shutil.copy` side effect is not
modelled), compute the tag, and set the purity flag.  `pkgsrc` is the
package-source directory the purelib/platlib artifacts are copied under.
On an error the dict mutations already performed by the Python code are not
observable here; the claims only concern the error itself and the fields
(tag, artifacts) that are assigned after every raise site. -/
def hookInitCore (wm : WheelMap) (limited_api pypy : Bool) (sysPlatform : String)
    (pkgsrc : List String) (env : TagEnv) (bd : BuildData) : Except Err BuildData :=
  let bd1 := { bd with shared_scripts := bd.shared_scripts ++
    (lookupBucket wm "scripts").map (fun (e : MappedEntry) => (joinPath e.src, joinPath e.dst)) }
  let bd2 := { bd1 with shared_data := bd1.shared_data ++
    (lookupBucket wm "datadir").map (fun (e : MappedEntry) => (joinPath e.src, joinPath e.dst)) }
  if lookupBucket wm "purelib" ≠ [] ∧ lookupBucket wm "platlib" ≠ [] then
    .error (.buildError mixedLayoutMsg)
  else
    let pl := lookupBucket wm "purelib" ++ lookupBucket wm "platlib"
    let bd3 := { bd2 with force_include := bd2.force_include ++
      (pl.map (fun (e : MappedEntry) => (joinPath (pkgsrc ++ e.dst), joinPath e.dst))) }
    let artifacts := pl.map (fun (e : MappedEntry) => joinPath (pkgsrc ++ e.dst))
    match _compute_tag wm limited_api pypy sysPlatform with
    | .error e => .error e
    | .ok t =>
      .ok { bd3 with
            pure_python := if _install_is_pure wm sysPlatform then bd3.pure_python else false,
            tag := some (t.render env),
            artifacts := bd3.artifacts ++ artifacts }

/-- Is a mapper result a `ConfigError`? -/
def isConfigError {α : Type} : Except Err α → Bool
  | .error (.configError _) => true
  | _ => false

/-- Look a file up in an `FsTree` by its relative path (first match by name
at each level, the way a real filesystem resolves a path); used only to
state properties of the walk, not part of the embedded code. -/
def findFile : List String → FsTree → Option (List Nat)
  | [], .file b => some b
  | n :: rest, .dir cs =>
    (match cs.find? (fun c => c.1 = n) with
     | some c => findFile rest c.2
     | none => none)
  | _, _ => none

mutual
/-- Well-formed filesystem tree: sibling names are distinct at every level
(true of any real directory listing). -/
def FsTree.wf : FsTree → Bool
  | .file _ => true
  | .dir cs => decide ((cs.map (fun c => c.1)).Nodup) && wfChildren cs

/-- All children well-formed. -/
def wfChildren : List (String × FsTree) → Bool
  | [] => true
  | (_, t) :: rest => t.wf && wfChildren rest
end

/-- The per-entry raise condition of the stable-ABI audit loop: the filename
matches the extension-module regex with an ABI tag other than "abi3". -/
def offendsLimitedApi (e : MappedEntry) : Bool :=
  match extAbiTag (nameOf e.dst) with
  | some (some a) => a != "abi3"
  | _ => false

/-- Specification-side characterization of one emitted walk entry (used to
state what the walk produces): `t` is a directory, and the entry is the file
found at some relative path `p` inside `t`, where no leading directory
prefix of `p` is excluded and `p` itself is not an excluded file. -/
def EmitSpec (srcBase dstBase : List String) (exDirs exFiles : List (List String))
    (t : FsTree) (rel : List String) (e : MappedEntry) : Prop :=
  t.isDir = true ∧ ∃ p bts, findFile p t = some bts ∧
    (∀ k, 0 < k → k < p.length → ¬ (rel ++ p.take k) ∈ exDirs) ∧
    ¬ (rel ++ p) ∈ exFiles ∧
    e = ⟨dstBase ++ rel ++ p, srcBase ++ rel ++ p, bts⟩

/-! ## Helper lemmas -/

/-- Appending an entry under a different bucket key does not change a
bucket's contents. -/
theorem lookupBucket_cons_ne (k k' : String) (e : MappedEntry) (wm : WheelMap)
    (h : k ≠ k') : lookupBucket ((k, e) :: wm) k' = lookupBucket wm k' := by
  simp [lookupBucket, List.filter_cons, h]

/-! ## C8: the binary-format sniffer -/

/-- C8: `_is_native` is true exactly when the leading bytes match the host
family's magic set — "MZ" (2 bytes) on win32/cygwin, one of the four Mach-O
magics (4 bytes) on darwin, and the ELF magic on every other host; ELF-led
bytes are native on a non-Apple non-Windows host and not native on darwin. -/
theorem c8_is_native_magic (plat : String) (bytes : List Nat) :
    ((plat = "win32" ∨ plat = "cygwin") →
      (_is_native plat bytes = true ↔ bytes.take 2 = [0x4d, 0x5a])) ∧
    (plat = "darwin" →
      (_is_native plat bytes = true ↔ bytes.take 4 ∈
        [[0xfe, 0xed, 0xfa, 0xce], [0xfe, 0xed, 0xfa, 0xcf],
         [0xcf, 0xfa, 0xed, 0xfe], [0xca, 0xfe, 0xba, 0xbe]])) ∧
    (plat ≠ "darwin" → plat ≠ "win32" → plat ≠ "cygwin" →
      (_is_native plat bytes = true ↔ bytes.take 4 = [0x7f, 0x45, 0x4c, 0x46])) ∧
    (plat ≠ "darwin" → plat ≠ "win32" → plat ≠ "cygwin" →
      _is_native plat ([0x7f, 0x45, 0x4c, 0x46] ++ bytes) = true) ∧
    _is_native "darwin" ([0x7f, 0x45, 0x4c, 0x46] ++ bytes) = false := by
  refine ⟨?_, ?_, ?_, ?_, ?_⟩
  · rintro (h | h) <;> subst h <;> simp [_is_native]
  · rintro h; subst h; simp [_is_native]
  · intro h1 h2 h3
    simp [_is_native, h1, h2, h3]
  · intro h1 h2 h3
    simp [_is_native, h1, h2, h3]
  · simp [_is_native]

/-- C8 witness: at `plat = "linux"` with an ELF prefix. -/
theorem c8_is_native_magic_witness :
    (("linux" : String) ≠ "darwin" ∧ ("linux" : String) ≠ "win32" ∧
      ("linux" : String) ≠ "cygwin") ∧
    _is_native "linux" ([0x7f, 0x45, 0x4c, 0x46] ++ [0x00, 0x01]) = true :=
  ⟨by decide,
    (c8_is_native_magic "linux" [0x00, 0x01]).2.2.2.1 (by decide) (by decide) (by decide)⟩

/-! ## C5: the purity check -/

/-- C5: `_install_is_pure` is false exactly when the platlib bucket is
non-empty or some scripts entry is native per `_is_native`; entries in the
purelib and data buckets never change the result. -/
theorem c5_is_pure_characterization (wm : WheelMap) (plat : String) :
    (_install_is_pure wm plat = false ↔
      (lookupBucket wm "platlib" ≠ [] ∨
        ∃ e ∈ lookupBucket wm "scripts", _is_native plat e.bytes = true)) ∧
    (∀ e : MappedEntry,
      _install_is_pure (("purelib", e) :: wm) plat = _install_is_pure wm plat) ∧
    (∀ e : MappedEntry,
      _install_is_pure (("data", e) :: wm) plat = _install_is_pure wm plat) := by
  refine ⟨?_, ?_, ?_⟩
  · constructor
    · intro h
      rw [_install_is_pure] at h
      split_ifs at h with hp hs
      · exact Or.inl hp
      · exact Or.inr (List.any_eq_true.mp hs)
    · intro h
      rw [_install_is_pure]
      split_ifs with hp hs
      · rfl
      · rfl
      · rcases h with h | h
        · exact absurd h hp
        · exact absurd (List.any_eq_true.mpr h) (by simpa using hs)
  · intro e
    rw [_install_is_pure, _install_is_pure,
      lookupBucket_cons_ne "purelib" "platlib" e wm (by decide),
      lookupBucket_cons_ne "purelib" "scripts" e wm (by decide)]
  · intro e
    rw [_install_is_pure, _install_is_pure,
      lookupBucket_cons_ne "data" "platlib" e wm (by decide),
      lookupBucket_cons_ne "data" "scripts" e wm (by decide)]

/-! ## C10: a dotted stem escapes the extension-module pattern -/

/-- C10: the extension-module regex requires a dot-free stem, so under
limited-API targeting a platlib file with a dotted stem and a
version-specific ABI tag is not flagged and the audit returns the "abi3"
marker, while the same suffix under a dot-free stem is flagged. -/
theorem c10_dotted_stem_escapes_audit :
    extAbiTag "pkg.mod.cpython-311-x86_64-linux-gnu.so" = none ∧
    extAbiTag "mod.cpython-311-x86_64-linux-gnu.so" =
      some (some "cpython-311-x86_64-linux-gnu") ∧
    _compute_stable_abi
      [("platlib", ⟨["pkg", "pkg.mod.cpython-311-x86_64-linux-gnu.so"], ["bsrc"], []⟩)]
      true false = .ok (some "abi3") ∧
    _compute_stable_abi
      [("platlib", ⟨["pkg", "mod.cpython-311-x86_64-linux-gnu.so"], ["bsrc"], []⟩)]
      true false =
      .error (.buildError (abiErrMsg ["pkg", "mod.cpython-311-x86_64-linux-gnu.so"])) := by
  set_option maxRecDepth 4000 in
  refine ⟨by decide, by decide, by decide, by decide⟩

/-! ## C4: unmapped placeholder -/

/-- C4 counterexample: on a record whose first destination segment is the
unrecognized placeholder "{includedir}", the mapper raises a `BuildError`
(`isConfigError` is false), so the claim that this is a configuration error
is false at this input; the message itself is as claimed. -/
theorem c4_unmapped_anchor_counterexample :
    _map_to_wheel [⟨"targets", ["bsrc"], ["{includedir}", "foo.h"], .file [], [], []⟩] =
      .error (.buildError (mapErrMsg ["{includedir}", "foo.h"])) ∧
    isConfigError
      (_map_to_wheel [⟨"targets", ["bsrc"], ["{includedir}", "foo.h"], .file [], [], []⟩])
      = false := ⟨rfl, rfl⟩

/-- C4 (amended): for every install record whose first destination segment
is not one of the five recognized placeholders, the mapper fails with a
BUILD error (the `BuildError` class, not the configuration-error kind) whose
message is exactly "Could not map installation path to an equivalent wheel
directory: '<destination>'" naming the offending destination. -/
theorem c4_unmapped_anchor_build_error (r : InstallRecord) (anchor : String)
    (rest : List String) (hdest : r.destination = anchor :: rest)
    (h : _INSTALLATION_PATH_MAP.lookup anchor = none) :
    mapRecord r = .error (.buildError (mapErrMsg r.destination)) := by
  rw [mapRecord, hdest]
  simp [h]

/-- C4 witness: the amended claim at the "{includedir}" record. -/
theorem c4_unmapped_anchor_build_error_witness :
    ((InstallRecord.mk "targets" ["bsrc"] ["{includedir}", "foo.h"] (.file []) [] []).destination
        = "{includedir}" :: ["foo.h"] ∧
      _INSTALLATION_PATH_MAP.lookup "{includedir}" = none) ∧
    mapRecord (InstallRecord.mk "targets" ["bsrc"] ["{includedir}", "foo.h"] (.file []) [] [])
      = .error (.buildError (mapErrMsg
          (InstallRecord.mk "targets" ["bsrc"] ["{includedir}", "foo.h"] (.file []) [] []).destination)) :=
  ⟨⟨rfl, by decide⟩,
    c4_unmapped_anchor_build_error _ "{includedir}" ["foo.h"] rfl (by decide)⟩

/-! ## C1: mixed purelib/platlib layout -/

/-- C1: whenever both the purelib and the platlib buckets are non-empty, the
install-plan consumption step of the build hook fails with the mixed-layout
`BuildError`, regardless of every other input; no tag and no artifact list
is produced (the whole step returns the error instead of a `BuildData`). -/
theorem c1_mixed_layout_rejected (wm : WheelMap) (la pypy : Bool) (plat : String)
    (pkgsrc : List String) (env : TagEnv) (bd : BuildData)
    (hpure : lookupBucket wm "purelib" ≠ [])
    (hplat : lookupBucket wm "platlib" ≠ []) :
    hookInitCore wm la pypy plat pkgsrc env bd = .error (.buildError mixedLayoutMsg) := by
  rw [hookInitCore]
  simp [hpure, hplat]

/-- C1 witness: a two-entry plan with one purelib and one platlib file. -/
theorem c1_mixed_layout_rejected_witness :
    (lookupBucket [("purelib", ⟨["a.py"], ["b1"], []⟩),
        ("platlib", ⟨["e.so"], ["b2"], [0x7f]⟩)] "purelib" ≠ [] ∧
      lookupBucket [("purelib", ⟨["a.py"], ["b1"], []⟩),
        ("platlib", ⟨["e.so"], ["b2"], [0x7f]⟩)] "platlib" ≠ []) ∧
    hookInitCore
      [("purelib", ⟨["a.py"], ["b1"], []⟩), ("platlib", ⟨["e.so"], ["b2"], [0x7f]⟩)]
      false false "linux" ["pkg"] ⟨"manylinux1_x86_64", "cp311", "cp311", "cp3"⟩
      ⟨[], [], [], true, none, []⟩
      = .error (.buildError mixedLayoutMsg) :=
  ⟨⟨by decide, by decide⟩,
    c1_mixed_layout_rejected _ false false "linux" ["pkg"] _ _ (by decide) (by decide)⟩

/-! ## C2: the tag selector -/

/-- C2: the tag selector yields exactly one of three shapes — resolved
triple ("py3", "none", "any") when the plan is pure; ("py3", "none",
concrete-host-platform) when it is impure but platlib is empty; otherwise
the stable-ABI audit's result in the ABI slot (propagating its error), with
the runtime-concrete interpreter+ABI pair when the audit returns `none` and
the major-version interpreter tag with the audit's marker when it returns
one. -/
theorem c2_tag_selector_shapes (wm : WheelMap) (la pypy : Bool) (plat : String)
    (env : TagEnv) :
    (_compute_tag wm la pypy plat).map (Tag.resolve env) =
      if _install_is_pure wm plat then .ok ("py3", "none", "any")
      else if lookupBucket wm "platlib" = [] then .ok ("py3", "none", env.platform_tag)
      else
        match _compute_stable_abi wm la pypy with
        | .error e => .error e
        | .ok none => .ok (env.interpreter_tag, env.abi_tag, env.platform_tag)
        | .ok (some m) => .ok (env.major_interpreter_tag, m, env.platform_tag) := by
  rw [_compute_tag]
  split_ifs with h1 h2
  · simp [Except.map, Tag.resolve, Option.getD]
  · simp [Except.map, Tag.resolve, Option.getD]
  · cases h : _compute_stable_abi wm la pypy with
    | error e => simp [Except.map]
    | ok abi => cases abi <;> simp [Except.map, Tag.resolve, Option.getD]

/-! ## C6: the stable-ABI auditor -/

/-- The audit loop succeeds with the "abi3" marker when no entry offends. -/
theorem abiCheck_ok_of_no_offender (l : List MappedEntry)
    (h : l.any offendsLimitedApi = false) : abiCheck l = .ok (some "abi3") := by
  induction l with
  | nil => rfl
  | cons e rest ih =>
    simp only [List.any_cons, Bool.or_eq_false_iff] at h
    obtain ⟨he, hrest⟩ := h
    rw [abiCheck]
    cases hx : extAbiTag (nameOf e.dst) with
    | none => exact ih hrest
    | some o =>
      cases o with
      | none => exact ih hrest
      | some a =>
        have ha : a = "abi3" := by
          simpa [offendsLimitedApi, hx] using he
        simp only [ha, if_pos rfl]
        exact ih hrest

/-- The audit loop raises the `BuildError` naming an offending entry when
one exists. -/
theorem abiCheck_error_of_offender (l : List MappedEntry)
    (h : l.any offendsLimitedApi = true) :
    ∃ e ∈ l, offendsLimitedApi e = true ∧
      abiCheck l = .error (.buildError (abiErrMsg e.dst)) := by
  induction l with
  | nil => simp at h
  | cons e rest ih =>
    rw [abiCheck]
    cases hx : extAbiTag (nameOf e.dst) with
    | none =>
      have he : offendsLimitedApi e = false := by simp [offendsLimitedApi, hx]
      simp only [List.any_cons, he, Bool.false_or] at h
      obtain ⟨e', he', ho, hcheck⟩ := ih h
      exact ⟨e', List.mem_cons_of_mem _ he', ho, hcheck⟩
    | some o =>
      cases o with
      | none =>
        have he : offendsLimitedApi e = false := by simp [offendsLimitedApi, hx]
        simp only [List.any_cons, he, Bool.false_or] at h
        obtain ⟨e', he', ho, hcheck⟩ := ih h
        exact ⟨e', List.mem_cons_of_mem _ he', ho, hcheck⟩
      | some a =>
        by_cases ha : a = "abi3"
        · have he : offendsLimitedApi e = false := by simp [offendsLimitedApi, hx, ha]
          simp only [List.any_cons, he, Bool.false_or] at h
          obtain ⟨e', he', ho, hcheck⟩ := ih h
          simp only [ha, if_pos rfl]
          exact ⟨e', List.mem_cons_of_mem _ he', ho, hcheck⟩
        · have he : offendsLimitedApi e = true := by simp [offendsLimitedApi, hx, ha]
          simp only [if_neg ha]
          exact ⟨e, List.mem_cons_self _ _, he, rfl⟩

/-- C6: the auditor returns `none` whenever limited-API targeting was not
requested or the interpreter is PyPy; otherwise it raises a `BuildError`
naming an offending platlib file exactly when some platlib entry's filename
matches the extension pattern with an ABI tag other than "abi3", and
returns the "abi3" marker when no entry offends. -/
theorem c6_stable_abi_auditor (wm : WheelMap) (la pypy : Bool) :
    (¬(la = true ∧ pypy = false) → _compute_stable_abi wm la pypy = .ok none) ∧
    (la = true → pypy = false →
      (((lookupBucket wm "platlib").any offendsLimitedApi = true ↔
        ∃ e ∈ lookupBucket wm "platlib", offendsLimitedApi e = true ∧
          _compute_stable_abi wm la pypy = .error (.buildError (abiErrMsg e.dst))) ∧
       ((lookupBucket wm "platlib").any offendsLimitedApi = false →
        _compute_stable_abi wm la pypy = .ok (some "abi3")))) := by
  constructor
  · intro h
    cases la <;> cases pypy <;> simp_all [_compute_stable_abi]
  · intro hla hpypy
    subst hla; subst hpypy
    have heq : _compute_stable_abi wm true false = abiCheck (lookupBucket wm "platlib") := by
      rfl
    rw [heq]
    constructor
    · constructor
      · intro h
        exact abiCheck_error_of_offender _ h
      · rintro ⟨e, he, ho, -⟩
        exact List.any_eq_true.mpr ⟨e, he, ho⟩
    · intro h
      exact abiCheck_ok_of_no_offender _ h

/-- C6 witness: with limited-API targeting on CPython and one platlib entry
tagged for a specific interpreter version. -/
theorem c6_stable_abi_auditor_witness :
    ((true = true) ∧ (false = false)) ∧
    (((lookupBucket [("platlib", ⟨["ext.cpython-311.so"], ["b"], []⟩)] "platlib").any
        offendsLimitedApi = true ↔
      ∃ e ∈ lookupBucket [("platlib", ⟨["ext.cpython-311.so"], ["b"], []⟩)] "platlib",
        offendsLimitedApi e = true ∧
        _compute_stable_abi [("platlib", ⟨["ext.cpython-311.so"], ["b"], []⟩)] true false
          = .error (.buildError (abiErrMsg e.dst))) ∧
     ((lookupBucket [("platlib", ⟨["ext.cpython-311.so"], ["b"], []⟩)] "platlib").any
        offendsLimitedApi = false →
      _compute_stable_abi [("platlib", ⟨["ext.cpython-311.so"], ["b"], []⟩)] true false
        = .ok (some "abi3"))) :=
  ⟨⟨rfl, rfl⟩,
    (c6_stable_abi_auditor [("platlib", ⟨["ext.cpython-311.so"], ["b"], []⟩)] true false).2
      rfl rfl⟩

/-! ## Walk lemmas for C3, C7, C9 -/

/-- `walkBlocks` is the per-child map of `walkEmit`. -/
theorem walkBlocks_eq_map (S D : List String) (xD xF : List (List String))
    (cs : List (String × FsTree)) (rel : List String) :
    walkBlocks S D xD xF cs rel =
      cs.map (fun c => (c.1, c.2.isDir, walkEmit S D xD xF c.2 (rel ++ [c.1]))) := by
  induction cs with
  | nil => rfl
  | cons c rest ih =>
    cases c with
    | mk n t => rw [walkBlocks, ih]; rfl

/-- `wfChildren` holds exactly when every child's tree is well-formed. -/
theorem wfChildren_iff (cs : List (String × FsTree)) :
    wfChildren cs = true ↔ ∀ c ∈ cs, c.2.wf = true := by
  induction cs with
  | nil => simp [wfChildren]
  | cons c rest ih =>
    cases c with
    | mk n t =>
      rw [wfChildren, Bool.and_eq_true, ih]
      constructor
      · rintro ⟨h1, h2⟩ c hc
        rcases List.mem_cons.mp hc with rfl | hc
        · exact h1
        · exact h2 c hc
      · intro h
        exact ⟨h (n, t) (List.mem_cons_self _ _), fun c hc => h c (List.mem_cons_of_mem _ hc)⟩

/-- With pairwise-distinct names, `find?` by a member's name returns exactly
that member. -/
theorem find?_name_of_nodup (cs : List (String × FsTree)) (c : String × FsTree)
    (hnd : (cs.map (fun x => x.1)).Nodup) (hc : c ∈ cs) :
    cs.find? (fun x => x.1 = c.1) = some c := by
  induction cs with
  | nil => simp at hc
  | cons d rest ih =>
    simp only [List.map_cons, List.nodup_cons] at hnd
    rcases List.mem_cons.mp hc with rfl | hc
    · exact List.find?_cons_of_pos _ (by simp)
    · have hd : ¬(d.1 = c.1) := by
        intro he
        exact hnd.1 (he ▸ List.mem_map_of_mem (fun x => x.1) hc)
      rw [List.find?_cons_of_neg _ (by simpa using hd)]
      exact ih hnd.2 hc

/-- Membership is invariant under `insertLe`. -/
theorem mem_insertLe {α : Type} (le : α → α → Bool) (a x : α) (l : List α) :
    x ∈ insertLe le a l ↔ x = a ∨ x ∈ l := by
  induction l with
  | nil => simp [insertLe]
  | cons b l ih =>
    rw [insertLe]
    split_ifs
    · simp
    · rw [List.mem_cons, ih, List.mem_cons]
      tauto

/-- Membership is invariant under the stable sort. -/
theorem mem_pySorted {α : Type} {le : α → α → Bool} {x : α} {l : List α} :
    x ∈ pySorted le l ↔ x ∈ l := by
  induction l with
  | nil => simp [pySorted]
  | cons a l ih =>
    rw [pySorted, mem_insertLe, ih, List.mem_cons]

/-- Membership in the per-directory file entries of the walk. -/
theorem mem_walk_fileEntries (S D : List String) (xF : List (List String))
    (cs : List (String × FsTree)) (rel : List String) (e : MappedEntry) :
    (e ∈ (pySorted (fun a b => strLe a.1 b.1)
        (cs.filter (fun c => c.2.isDir = false))).filterMap
        (fun c => if rel ++ [c.1] ∈ xF then none
          else some ⟨D ++ rel ++ [c.1], S ++ rel ++ [c.1], c.2.headBytes⟩)) ↔
    ∃ c ∈ cs, c.2.isDir = false ∧ ¬(rel ++ [c.1]) ∈ xF ∧
      e = ⟨D ++ rel ++ [c.1], S ++ rel ++ [c.1], c.2.headBytes⟩ := by
  simp only [List.mem_filterMap, mem_pySorted, List.mem_filter, decide_eq_true_eq]
  constructor
  · rintro ⟨c, ⟨hc, hdir⟩, hite⟩
    by_cases hex : rel ++ [c.1] ∈ xF
    · simp [hex] at hite
    · rw [if_neg hex] at hite
      exact ⟨c, hc, hdir, hex, (Option.some.injEq _ _ ▸ hite).symm⟩
  · rintro ⟨c, hc, hdir, hex, he⟩
    exact ⟨c, ⟨hc, hdir⟩, by rw [if_neg hex, he]⟩

/-- Membership in the sorted recursive sub-blocks of the walk. -/
theorem mem_walk_subBlocks (S D : List String) (xD xF : List (List String))
    (cs : List (String × FsTree)) (rel : List String) (e : MappedEntry) :
    (e ∈ (pySorted (fun a b => strLe a.1 b.1)
        ((walkBlocks S D xD xF cs rel).filter
          (fun b => b.2.1 && !(xD.contains (rel ++ [b.1]))))).flatMap
        (fun b => b.2.2)) ↔
    ∃ c ∈ cs, c.2.isDir = true ∧ ¬(rel ++ [c.1]) ∈ xD ∧
      e ∈ walkEmit S D xD xF c.2 (rel ++ [c.1]) := by
  simp only [List.mem_flatMap, mem_pySorted, List.mem_filter,
    walkBlocks_eq_map, List.mem_map, Bool.and_eq_true, Bool.not_eq_true']
  constructor
  · rintro ⟨b, ⟨⟨c, hc, rfl⟩, hdir, hcont⟩, he⟩
    dsimp only at hdir hcont he
    refine ⟨c, hc, hdir, ?_, he⟩
    intro hmem
    have hc2 : xD.contains (rel ++ [c.1]) = true := List.elem_iff.mpr hmem
    rw [hc2] at hcont
    cases hcont
  · rintro ⟨c, hc, hdir, hni, he⟩
    refine ⟨(c.1, c.2.isDir, walkEmit S D xD xF c.2 (rel ++ [c.1])), ⟨⟨c, hc, rfl⟩, hdir, ?_⟩, he⟩
    dsimp only
    cases hcont : xD.contains (rel ++ [c.1])
    · rfl
    · exact absurd (List.elem_iff.mp hcont) hni

mutual
/-- Every entry emitted by the walk under `rel` has a destination extending
`D ++ rel`. -/
theorem walkEmit_dst_shape (S D : List String) (xD xF : List (List String)) :
    ∀ (t : FsTree) (rel : List String) (e : MappedEntry),
      e ∈ walkEmit S D xD xF t rel → ∃ q, e.dst = D ++ (rel ++ q)
  | .file _, rel, e => by simp [walkEmit]
  | .dir cs, rel, e => by
    intro he
    simp only [walkEmit, List.mem_append] at he
    rcases he with hf | hb
    · obtain ⟨c, hc, hdir, hex, rfl⟩ := (mem_walk_fileEntries S D xF cs rel e).mp hf
      exact ⟨[c.1], List.append_assoc D rel [c.1]⟩
    · obtain ⟨c, hc, hdir, hni, he'⟩ := (mem_walk_subBlocks S D xD xF cs rel e).mp hb
      exact walkChildren_dst_shape S D xD xF cs rel c e hc he'

/-- The same destination shape, recursing over the children of a directory. -/
theorem walkChildren_dst_shape (S D : List String) (xD xF : List (List String)) :
    ∀ (cs : List (String × FsTree)) (rel : List String) (c : String × FsTree)
      (e : MappedEntry), c ∈ cs → e ∈ walkEmit S D xD xF c.2 (rel ++ [c.1]) →
      ∃ q, e.dst = D ++ (rel ++ q)
  | [], _, c, e => by
    intro hc _
    simp at hc
  | (n, t) :: rest, rel, c, e => by
    intro hc he
    rcases List.mem_cons.mp hc with rfl | hc
    · obtain ⟨q, hq⟩ := walkEmit_dst_shape S D xD xF t (rel ++ [n]) e he
      exact ⟨n :: q, by rw [hq]; simp [List.append_assoc]⟩
    · exact walkChildren_dst_shape S D xD xF rest rel c e hc he
end


mutual
/-- Characterization of the walk's output on a well-formed tree: an entry is
emitted exactly when it is the image of a file reachable in the tree whose
relative path survives the directory and file exclusions. -/
theorem walkEmit_mem (S D : List String) (xD xF : List (List String)) :
    ∀ (t : FsTree) (rel : List String) (e : MappedEntry), t.wf = true →
      (e ∈ walkEmit S D xD xF t rel ↔ EmitSpec S D xD xF t rel e)
  | .file b, rel, e => by
    intro _
    simp [walkEmit, EmitSpec, FsTree.isDir]
  | .dir cs, rel, e => by
    intro hwf
    rw [FsTree.wf, Bool.and_eq_true, decide_eq_true_eq] at hwf
    obtain ⟨hnd, hwfc⟩ := hwf
    simp only [walkEmit, List.mem_append]
    rw [mem_walk_fileEntries S D xF cs rel e, mem_walk_subBlocks S D xD xF cs rel e]
    constructor
    · rintro (⟨c, hc, hdir, hex, rfl⟩ | ⟨c, hc, hdir, hni, he'⟩)
      · refine ⟨rfl, [c.1], c.2.headBytes, ?_, ?_, hex, rfl⟩
        · cases hcf : c.2 with
          | dir cs' => rw [hcf] at hdir; simp [FsTree.isDir] at hdir
          | file b =>
            simp only [findFile]
            rw [find?_name_of_nodup cs c hnd hc]
            dsimp only
            rw [hcf]
            rfl
        · intro k h1 h2
          simp only [List.length_singleton] at h2
          omega
      · have hspec := (walkChildren_mem S D xD xF cs rel c e hc hwfc).mp he'
        obtain ⟨hdir2, p', bts, hfind, hxD2, hxF2, rfl⟩ := hspec
        refine ⟨rfl, c.1 :: p', bts, ?_, ?_, ?_, ?_⟩
        · simp only [findFile]
          rw [find?_name_of_nodup cs c hnd hc]
          dsimp only
          exact hfind
        · intro k h1 h2
          match k, h1 with
          | 1, _ =>
            simpa using hni
          | (j + 2), _ =>
            have h2' : j + 1 < p'.length := by
              simp only [List.length_cons] at h2
              omega
            have := hxD2 (j + 1) (by omega) h2'
            simpa [List.append_assoc] using this
        · simpa [List.append_assoc] using hxF2
        · simp [List.append_assoc]
    · rintro ⟨-, p, bts, hfind, hxD2, hxF2, rfl⟩
      cases p with
      | nil => simp [findFile] at hfind
      | cons n q =>
        simp only [findFile] at hfind
        cases hf : cs.find? (fun x => x.1 = n) with
        | none => rw [hf] at hfind; cases hfind
        | some c =>
          rw [hf] at hfind
          dsimp only at hfind
          have hcmem : c ∈ cs := List.mem_of_find?_eq_some hf
          have hcname : c.1 = n := by simpa using List.find?_some hf
          cases q with
          | nil =>
            cases hc2 : c.2 with
            | dir cs' =>
              rw [hc2] at hfind
              simp [findFile] at hfind
            | file b =>
              rw [hc2] at hfind
              simp only [findFile, Option.some.injEq] at hfind
              subst hfind
              left
              refine ⟨c, hcmem, by simp [hc2, FsTree.isDir], ?_, ?_⟩
              · rw [hcname]; exact hxF2
              · rw [hcname, hc2]
                rfl
          | cons m q' =>
            cases hc2 : c.2 with
            | file b =>
              rw [hc2] at hfind
              simp [findFile] at hfind
            | dir cs' =>
              right
              refine ⟨c, hcmem, by simp [hc2, FsTree.isDir], ?_, ?_⟩
              · rw [hcname]
                have := hxD2 1 (by omega) (by simp)
                simpa using this
              · apply (walkChildren_mem S D xD xF cs rel c _ hcmem hwfc).mpr
                refine ⟨by simp [hc2, FsTree.isDir], m :: q', bts, hfind, ?_, ?_, ?_⟩
                · intro j hj1 hj2
                  have hj2' : j + 1 < (n :: m :: q').length := by
                    simp only [List.length_cons] at hj2 ⊢
                    omega
                  have := hxD2 (j + 1) (by omega) hj2'
                  rw [hcname]
                  simpa [List.append_assoc] using this
                · rw [hcname]
                  simpa [List.append_assoc] using hxF2
                · rw [hcname]
                  simp [List.append_assoc]

/-- The walk characterization for each child of a directory listing. -/
theorem walkChildren_mem (S D : List String) (xD xF : List (List String)) :
    ∀ (cs : List (String × FsTree)) (rel : List String) (c : String × FsTree)
      (e : MappedEntry), c ∈ cs → wfChildren cs = true →
      (e ∈ walkEmit S D xD xF c.2 (rel ++ [c.1]) ↔
        EmitSpec S D xD xF c.2 (rel ++ [c.1]) e)
  | [], _, c, e => by
    intro hc _
    simp at hc
  | (n, t) :: rest, rel, c, e => by
    intro hc hwf
    rw [wfChildren, Bool.and_eq_true] at hwf
    rcases List.mem_cons.mp hc with rfl | hc
    · exact walkEmit_mem S D xD xF t (rel ++ [n]) e hwf.1
    · exact walkChildren_mem S D xD xF rest rel c e hc hwf.2
end

/-! ## C7: directory expansion -/

/-- C7: for a directory-kind record the walk emits exactly one entry per
file reachable from the source root that is not under an excluded
subdirectory and not itself excluded, at destination `dst ++ relpath`; the
mapper's directory branch is exactly this walk; and on the claim's example
(`a.py`, `b.py`, `sub/c.py` with `b.py` excluded, listed on disk out of
order) the emitted entries are exactly `a.py` then `sub/c.py` in sorted
order. -/
theorem c7_directory_expansion :
    (∀ (S D : List String) (xD xF : List (List String)) (t : FsTree) (e : MappedEntry),
      t.wf = true →
      (e ∈ walkEmit S D xD xF t [] ↔
        (t.isDir = true ∧ ∃ p bts, findFile p t = some bts ∧
          (∀ k, 0 < k → k < p.length → ¬ p.take k ∈ xD) ∧ ¬ p ∈ xF ∧
          e = ⟨D ++ p, S ++ p, bts⟩))) ∧
    (∀ (r : InstallRecord) (anchor path : String) (rest : List String),
      r.destination = anchor :: rest →
      _INSTALLATION_PATH_MAP.lookup anchor = some path → isDirRecord r = true →
      mapRecord r = .ok ((walkEmit r.src rest r.exclude_dirs r.exclude_files r.content []).map
        (fun e => (path, e)))) ∧
    walkEmit ["bld"] ["pkg"] [] [["b.py"]]
      (.dir [("b.py", .file [2]), ("a.py", .file [1]), ("sub", .dir [("c.py", .file [3])])]) []
      = [⟨["pkg", "a.py"], ["bld", "a.py"], [1]⟩,
         ⟨["pkg", "sub", "c.py"], ["bld", "sub", "c.py"], [3]⟩] := by
  refine ⟨?_, ?_, ?_⟩
  · intro S D xD xF t e hwf
    rw [walkEmit_mem S D xD xF t [] e hwf, EmitSpec]
    simp
  · intro r anchor path rest hdest h hd
    rw [mapRecord, hdest]
    simp [h, hd]
  · decide

/-- C7 witness: the characterization applied to the example tree and its
`a.py` entry. -/
theorem c7_directory_expansion_witness :
    (FsTree.wf (.dir [("b.py", .file [2]), ("a.py", .file [1]),
        ("sub", .dir [("c.py", .file [3])])]) = true) ∧
    ((⟨["pkg", "a.py"], ["bld", "a.py"], [1]⟩ : MappedEntry) ∈
        walkEmit ["bld"] ["pkg"] [] [["b.py"]]
          (.dir [("b.py", .file [2]), ("a.py", .file [1]),
            ("sub", .dir [("c.py", .file [3])])]) [] ↔
      ((FsTree.dir [("b.py", .file [2]), ("a.py", .file [1]),
          ("sub", .dir [("c.py", .file [3])])]).isDir = true ∧
        ∃ p bts,
          findFile p (.dir [("b.py", .file [2]), ("a.py", .file [1]),
            ("sub", .dir [("c.py", .file [3])])]) = some bts ∧
          (∀ k, 0 < k → k < p.length → ¬ p.take k ∈ ([] : List (List String))) ∧
          ¬ p ∈ [["b.py"]] ∧
          (⟨["pkg", "a.py"], ["bld", "a.py"], [1]⟩ : MappedEntry)
            = ⟨["pkg"] ++ p, ["bld"] ++ p, bts⟩)) :=
  ⟨by decide,
    c7_directory_expansion.1 ["bld"] ["pkg"] [] [["b.py"]] _ _ (by decide)⟩

/-! ## C3: recognized placeholders -/

/-- C3: a record whose first destination segment is a recognized placeholder
is never dropped: the mapper succeeds, every produced entry lands in the
bucket the fixed table assigns to the placeholder, every entry's destination
is the record destination minus its first segment (extended by a relative
path for directory expansions), and a single-file record produces exactly
its one entry. -/
theorem c3_recognized_placeholder_mapping (r : InstallRecord) (anchor bucket : String)
    (rest : List String) (hdest : r.destination = anchor :: rest)
    (h : _INSTALLATION_PATH_MAP.lookup anchor = some bucket) :
    ∃ es, mapRecord r = .ok es ∧
      (∀ q ∈ es, q.1 = bucket) ∧
      (∀ q ∈ es, ∃ relp, q.2.dst = rest ++ relp) ∧
      (isDirRecord r = false → es = [(bucket, ⟨rest, r.src, r.content.headBytes⟩)]) := by
  by_cases hd : isDirRecord r = true
  · refine ⟨(walkEmit r.src rest r.exclude_dirs r.exclude_files r.content []).map
      (fun e => (bucket, e)), ?_, ?_, ?_, ?_⟩
    · rw [mapRecord, hdest]
      simp [h, hd]
    · intro q hq
      simp only [List.mem_map] at hq
      obtain ⟨e, he, rfl⟩ := hq
      rfl
    · intro q hq
      simp only [List.mem_map] at hq
      obtain ⟨e, he, rfl⟩ := hq
      obtain ⟨qq, hqq⟩ := walkEmit_dst_shape r.src rest r.exclude_dirs r.exclude_files
        r.content [] e he
      exact ⟨qq, by simpa using hqq⟩
    · intro hfalse
      rw [hd] at hfalse
      cases hfalse
  · have hd' : isDirRecord r = false := by simpa using hd
    refine ⟨[(bucket, ⟨rest, r.src, r.content.headBytes⟩)], ?_, ?_, ?_, fun _ => rfl⟩
    · rw [mapRecord, hdest]
      simp [h, hd']
    · intro q hq
      simp only [List.mem_singleton] at hq
      subst hq
      rfl
    · intro q hq
      simp only [List.mem_singleton] at hq
      subst hq
      exact ⟨[], by simp⟩

/-- C3 witness: a single-file "{datadir}" record. -/
theorem c3_recognized_placeholder_mapping_witness :
    ((InstallRecord.mk "data" ["bsrc"] ["{datadir}", "share", "f.txt"]
        (.file [7]) [] []).destination = "{datadir}" :: ["share", "f.txt"] ∧
      _INSTALLATION_PATH_MAP.lookup "{datadir}" = some "data") ∧
    (∃ es, mapRecord (InstallRecord.mk "data" ["bsrc"] ["{datadir}", "share", "f.txt"]
        (.file [7]) [] []) = .ok es ∧
      (∀ q ∈ es, q.1 = "data") ∧
      (∀ q ∈ es, ∃ relp, q.2.dst = ["share", "f.txt"] ++ relp) ∧
      (isDirRecord (InstallRecord.mk "data" ["bsrc"] ["{datadir}", "share", "f.txt"]
          (.file [7]) [] []) = false →
        es = [("data", ⟨["share", "f.txt"],
          (InstallRecord.mk "data" ["bsrc"] ["{datadir}", "share", "f.txt"]
            (.file [7]) [] []).src,
          (InstallRecord.mk "data" ["bsrc"] ["{datadir}", "share", "f.txt"]
            (.file [7]) [] []).content.headBytes⟩)])) :=
  ⟨⟨rfl, by decide⟩,
    c3_recognized_placeholder_mapping _ "{datadir}" "data" ["share", "f.txt"] rfl (by decide)⟩

/-! ## C9: bucket keys -/

/-- Every value of the placeholder table is one of the four wheel buckets. -/
theorem pathMap_values (a p : String) (h : _INSTALLATION_PATH_MAP.lookup a = some p) :
    p ∈ (["scripts", "purelib", "platlib", "data"] : List String) := by
  simp only [_INSTALLATION_PATH_MAP, List.lookup] at h
  repeat' split at h
  all_goals simp_all

/-- Every bucket key `mapRecord` emits comes from the placeholder table. -/
theorem mapRecord_keys (r : InstallRecord) (es : List (String × MappedEntry))
    (h : mapRecord r = .ok es) :
    ∀ q ∈ es, q.1 ∈ (["scripts", "purelib", "platlib", "data"] : List String) := by
  intro q hq
  rw [mapRecord] at h
  cases hdest : r.destination with
  | nil =>
    rw [hdest] at h
    cases h
  | cons anchor rest =>
    rw [hdest] at h
    dsimp only at h
    cases hl : _INSTALLATION_PATH_MAP.lookup anchor with
    | none =>
      rw [hl] at h
      cases h
    | some path =>
      rw [hl] at h
      dsimp only at h
      split at h
      · have hes : (walkEmit r.src rest r.exclude_dirs r.exclude_files r.content []).map
            (fun e => (path, e)) = es := by
          simpa using h
        rw [← hes] at hq
        simp only [List.mem_map] at hq
        obtain ⟨e, he, rfl⟩ := hq
        exact pathMap_values anchor path hl
      · have hes : [(path, (⟨rest, r.src, r.content.headBytes⟩ : MappedEntry))] = es := by
          simpa using h
        rw [← hes] at hq
        simp only [List.mem_singleton] at hq
        subst hq
        exact pathMap_values anchor path hl

/-- C9: the mapper only ever produces the bucket keys scripts, purelib,
platlib and data; in particular "datadir" is never produced, so the build
hook's `install_plan["datadir"]` lookup — the only place shared data is
forwarded — is always empty and the hook forwards no shared data at all. -/
theorem c9_no_shared_data_forwarded (rs : List InstallRecord) (wm : WheelMap)
    (h : _map_to_wheel rs = .ok wm) :
    (∀ q ∈ wm, q.1 ∈ (["scripts", "purelib", "platlib", "data"] : List String)) ∧
    lookupBucket wm "datadir" = [] ∧
    (∀ (la pypy : Bool) (plat : String) (pkgsrc : List String) (env : TagEnv)
      (bd bd' : BuildData),
      hookInitCore wm la pypy plat pkgsrc env bd = .ok bd' →
        bd'.shared_data = bd.shared_data) := by
  have hkeys : ∀ q ∈ wm, q.1 ∈ (["scripts", "purelib", "platlib", "data"] : List String) := by
    induction rs generalizing wm with
    | nil =>
      rw [_map_to_wheel] at h
      have : ([] : WheelMap) = wm := by simpa using h
      subst this
      simp
    | cons r rest ih =>
      rw [_map_to_wheel] at h
      cases hm : mapRecord r with
      | error err =>
        rw [hm] at h
        cases h
      | ok es =>
        rw [hm] at h
        cases hrest : _map_to_wheel rest with
        | error err =>
          rw [hrest] at h
          cases h
        | ok ws =>
          rw [hrest] at h
          have h' : (Except.ok (es ++ ws) : Except Err WheelMap) = Except.ok wm := h
          have : es ++ ws = wm := by simpa using h'
          subst this
          intro q hq
          rcases List.mem_append.mp hq with hq | hq
          · exact mapRecord_keys r es hm q hq
          · exact ih ws hrest q hq
  have hdd : lookupBucket wm "datadir" = [] := by
    rw [lookupBucket]
    have hfil : wm.filter (fun p => p.1 = "datadir") = [] := by
      rw [List.filter_eq_nil_iff]
      intro q hq
      have hk := hkeys q hq
      simp only [List.mem_cons, List.not_mem_nil, or_false] at hk
      simp only [decide_eq_true_eq]
      rcases hk with h1 | h1 | h1 | h1 <;> simp [h1]
    rw [hfil]
    rfl
  refine ⟨hkeys, hdd, ?_⟩
  intro la pypy plat pkgsrc env bd bd' hinit
  rw [hookInitCore, hdd] at hinit
  simp only [List.map_nil, List.append_nil] at hinit
  split at hinit
  · cases hinit
  · split at hinit
    · cases hinit
    · cases hinit
      rfl

/-- C9 witness: a one-record "{datadir}" plan. -/
theorem c9_no_shared_data_forwarded_witness :
    (_map_to_wheel [⟨"data", ["bsrc"], ["{datadir}", "f.txt"], .file [9], [], []⟩]
        = .ok [("data", ⟨["f.txt"], ["bsrc"], [9]⟩)]) ∧
    ((∀ q ∈ ([("data", (⟨["f.txt"], ["bsrc"], [9]⟩ : MappedEntry))] : WheelMap),
        q.1 ∈ (["scripts", "purelib", "platlib", "data"] : List String)) ∧
      lookupBucket [("data", ⟨["f.txt"], ["bsrc"], [9]⟩)] "datadir" = [] ∧
      (∀ (la pypy : Bool) (plat : String) (pkgsrc : List String) (env : TagEnv)
        (bd bd' : BuildData),
        hookInitCore [("data", ⟨["f.txt"], ["bsrc"], [9]⟩)] la pypy plat pkgsrc env bd
            = .ok bd' →
          bd'.shared_data = bd.shared_data)) :=
  ⟨by decide,
    c9_no_shared_data_forwarded
      [⟨"data", ["bsrc"], ["{datadir}", "f.txt"], .file [9], [], []⟩]
      [("data", ⟨["f.txt"], ["bsrc"], [9]⟩)] (by decide)⟩
